import Mathlib

/-!
Shallow embedding of the extendable-unique-ownership smart-pointer module.

The C++ sources define three cooperating handle types twice (an
`extendable_unique_ownership` spelling and a `shareable_unique_ownership`
spelling): a move-only owner (`unique_extendable_ptr` / `OwningRef`), a weak
observer (`weak_extender` / `WeakRef`), and a scope-bound access handle
(`scoped_extender` / `ScopedRef`).  A `resource_owner` cell holds the managed
resource (a possibly-null `std::unique_ptr<T>`), an atomic
`marked_for_destruction` flag, and lives behind an `std::shared_ptr`.

The embedding models the shared-pointer machinery explicitly: a `Heap` is a
list of cells addressed by position (addresses are never reused), each cell
carrying the resource contents, the destruction flag and its strong reference
count.  Dropping the last strong reference destroys the cell's
`resource_owner`, which frees the resource; weak links keep the address and
can test liveness.  A raw `T*` is modelled as `Option Nat`: `some a` is the
address of the `T` held by cell `a`, `none` is `nullptr`.
-/

/-- A raw `T*`: `some a` points at the `T` owned by cell `a`, `none` is null. -/
abbrev TPtr : Type := Option Nat

/-- `unique_extendable_ptr<T>::resource_owner` together with the shared_ptr
control-block state of the cell that holds it: `resource` is the contained
`std::unique_ptr<T>` (`none` = null), `marked_for_destruction` the atomic
flag, `strong` the strong reference count (`0` = the owner was destroyed and
the resource freed). -/
structure ResourceOwnerCell (T : Type) where
  resource : Option T
  marked_for_destruction : Bool
  strong : Nat
  deriving Repr, DecidableEq

/-- The shared-pointer heap: cells addressed by list position; addresses are
never reused (allocation appends). -/
structure Heap (T : Type) where
  cells : List (ResourceOwnerCell T)
  deriving Repr, DecidableEq

/-- Look up the cell at address `a`. -/
def Heap.find {T : Type} (h : Heap T) (a : Nat) : Option (ResourceOwnerCell T) :=
  h.cells[a]?

/-- Replace the cell at address `a`. -/
def Heap.set {T : Type} (h : Heap T) (a : Nat) (c : ResourceOwnerCell T) : Heap T :=
  ⟨h.cells.set a c⟩

/-- The strong reference count of cell `a` (0 when absent). -/
def Heap.strongAt {T : Type} (h : Heap T) (a : Nat) : Nat :=
  match h.find a with
  | some c => c.strong
  | none => 0

/-- Cell `a` is alive: its `resource_owner` has not been destroyed, i.e. its
strong count is positive. -/
def Heap.alive {T : Type} (h : Heap T) (a : Nat) : Bool :=
  decide (0 < h.strongAt a)

/-- The `marked_for_destruction` flag of cell `a` (`false` when absent). -/
def Heap.markedAt {T : Type} (h : Heap T) (a : Nat) : Bool :=
  match h.find a with
  | some c => c.marked_for_destruction
  | none => false

/-- The resource contents of cell `a` (`none` when absent, null, or freed). -/
def Heap.resourceAt {T : Type} (h : Heap T) (a : Nat) : Option T :=
  match h.find a with
  | some c => c.resource
  | none => none

/-- `std::make_shared<resource_owner>(std::move(resource))`: allocate a fresh
cell holding `r`, flag initialised `false` (both `resource_owner`
constructors do so), strong count 1.  Returns the new heap and address. -/
def Heap.alloc {T : Type} (h : Heap T) (r : Option T) : Heap T × Nat :=
  (⟨h.cells ++ [⟨r, false, 1⟩]⟩, h.cells.length)

/-- `marked_for_destruction.store(true)` on cell `a`. -/
def Heap.setMarked {T : Type} (h : Heap T) (a : Nat) : Heap T :=
  match h.find a with
  | some c => h.set a { c with marked_for_destruction := true }
  | none => h

/-- Taking one more strong reference to cell `a` (shared_ptr copy). -/
def Heap.incStrong {T : Type} (h : Heap T) (a : Nat) : Heap T :=
  match h.find a with
  | some c => h.set a { c with strong := c.strong + 1 }
  | none => h

/-- Dropping one strong reference to cell `a` (shared_ptr reset or
destruction).  When the count reaches 0 the `resource_owner` is destroyed,
which destroys its `std::unique_ptr` and frees the resource. -/
def Heap.decStrong {T : Type} (h : Heap T) (a : Nat) : Heap T :=
  match h.find a with
  | some c =>
      if c.strong ≤ 1 then h.set a { c with strong := 0, resource := none }
      else h.set a { c with strong := c.strong - 1 }
  | none => h

/-- `T* resource_owner::get() const { return resource.get(); }` for cell `a`:
the address of the contained `T`, or null when the `unique_ptr` is null. -/
def Heap.ownerGet {T : Type} (h : Heap T) (a : Nat) : TPtr :=
  match h.find a with
  | some c => if c.resource.isSome then some a else none
  | none => none

/-- `unique_extendable_ptr<T>` / `OwningRef<T>`: holds one
`strong_lifetime_link` (an `std::shared_ptr<resource_owner>`), `none` when
the shared_ptr is null. -/
structure unique_extendable_ptr where
  resource : Option Nat
  deriving Repr, DecidableEq

/-- `weak_extender<T>` / `WeakRef<T>`: a `weak_lifetime_link`
(`std::weak_ptr<resource_owner>`).  `some a` keeps the address even after the
cell expires; `none` is an empty weak_ptr. -/
structure weak_extender where
  link : Option Nat
  deriving Repr, DecidableEq

/-- `scoped_extender<T>` / `ScopedRef<T>`: a `strong_lifetime_link`,
`none` when the shared_ptr is null (the lock attempt failed). -/
structure scoped_extender where
  link : Option Nat
  deriving Repr, DecidableEq

/-- `unique_extendable_ptr(std::unique_ptr<T> resource)
  : resource(std::make_shared<resource_owner>(std::move(resource))) {}` —
constructing from a `std::unique_ptr` (null or not) always allocates a
`resource_owner`. -/
def unique_extendable_ptr.construct {T : Type} (h : Heap T) (r : Option T) :
    Heap T × unique_extendable_ptr :=
  let p := h.alloc r
  (p.1, ⟨some p.2⟩)

/-- `T* unique_extendable_ptr::get() const { return resource->get(); }` —
dereferences the shared_ptr unconditionally: returns `some t` where `t` is the
raw pointer produced, or `none` for the undefined behaviour of dereferencing
a null `resource` handle. -/
def unique_extendable_ptr.get {T : Type} (h : Heap T) (p : unique_extendable_ptr) :
    Option TPtr :=
  match p.resource with
  | some a => some (h.ownerGet a)
  | none => none

/-- `void unique_extendable_ptr::reset()`:
`if (resource != nullptr) { resource->marked_for_destruction.store(true);
resource.reset(); }`. -/
def unique_extendable_ptr.reset {T : Type} (h : Heap T) (p : unique_extendable_ptr) :
    Heap T × unique_extendable_ptr :=
  match p.resource with
  | some a => (((h.setMarked a).decStrong a), ⟨none⟩)
  | none => (h, p)

/-- `~unique_extendable_ptr() { reset(); }`. -/
def unique_extendable_ptr.destroy {T : Type} (h : Heap T) (p : unique_extendable_ptr) :
    Heap T × unique_extendable_ptr :=
  unique_extendable_ptr.reset h p

/-- The defaulted move assignment `unique_extendable_ptr&
operator=(unique_extendable_ptr&&)`: member-wise shared_ptr move assignment —
the target's previous strong reference is released (without touching any
flag), the source's link is taken over and the source left null.  Returns
(heap, new target, new source). -/
def unique_extendable_ptr.moveAssign {T : Type} (h : Heap T)
    (dst src : unique_extendable_ptr) :
    Heap T × unique_extendable_ptr × unique_extendable_ptr :=
  let h1 := match dst.resource with
    | some a => h.decStrong a
    | none => h
  (h1, ⟨src.resource⟩, ⟨none⟩)

/-- `weak_extender(const unique_extendable_ptr<T>& owner) : link(owner.resource) {}`. -/
def weak_extender.ofOwner (p : unique_extendable_ptr) : weak_extender :=
  ⟨p.resource⟩

/-- `void weak_extender::reset() { link.reset(); }`. -/
def weak_extender.reset (_ : weak_extender) : weak_extender :=
  ⟨none⟩

/-- `std::weak_ptr::lock()`: yields a strong link (incrementing the count)
when the cell is still alive, a null shared_ptr otherwise. -/
def weakLock {T : Type} (h : Heap T) (link : Option Nat) : Heap T × Option Nat :=
  match link with
  | some a => if h.alive a then (h.incStrong a, some a) else (h, none)
  | none => (h, none)

/-- `static bool weak_extender::not_marked_for_destruction(const resource* r)
{ return r != nullptr && !r->marked_for_destruction.load(); }` — the variant
that null-tests the raw pointer inside the predicate. -/
def not_marked_for_destruction {T : Type} (h : Heap T) (r : Option Nat) : Bool :=
  match r with
  | some a => !(h.markedAt a)
  | none => false

/-- `scoped_extender<T> weak_extender::lock() const {
  auto strong_link = link.lock();
  return not_marked_for_destruction(strong_link.get())
      ? scoped_extender<T>(strong_link) : scoped_extender<T>(); }`
On the failure branch the local `strong_link` is destroyed at scope exit,
releasing the reference it may have acquired. -/
def weak_extender.lock {T : Type} (h : Heap T) (w : weak_extender) :
    Heap T × scoped_extender :=
  let p := weakLock h w.link
  if not_marked_for_destruction p.1 p.2 then (p.1, ⟨p.2⟩)
  else
    match p.2 with
    | some a => (p.1.decStrong a, ⟨none⟩)
    | none => (p.1, ⟨none⟩)

/-- `bool scoped_extender::empty() const { return link == nullptr; }`. -/
def scoped_extender.empty (s : scoped_extender) : Bool :=
  s.link.isNone

/-- `T* scoped_extender::get() const { return !empty() ? link->get() : nullptr; }`
— the null-checked variant from `extendable_unique_ownership_impl`. -/
def scoped_extender.get {T : Type} (h : Heap T) (s : scoped_extender) : TPtr :=
  match s.link with
  | some a => h.ownerGet a
  | none => none

/-- `void scoped_extender::reset() { link.reset(); }` — releases the strong
reference early. -/
def scoped_extender.reset {T : Type} (h : Heap T) (s : scoped_extender) :
    Heap T × scoped_extender :=
  match s.link with
  | some a => (h.decStrong a, ⟨none⟩)
  | none => (h, ⟨none⟩)

/-- `T* ScopedRef::get() const { return resource->get(); }` from
`shareable_unique_ownership_impl.h` — dereferences the handle without an
emptiness check: `some t` is the returned pointer, `none` the undefined
behaviour of dereferencing a null shared_ptr. -/
def ScopedRef.get {T : Type} (h : Heap T) (s : scoped_extender) : Option TPtr :=
  match s.link with
  | some a => some (h.ownerGet a)
  | none => none

/-- `static bool WeakRef::notMarkedForDestruction(const std::shared_ptr<Resource>& r)
{ return !r->markedForDestruction.load(); }` — the variant (source file with
guard `_SHAREABLE_UNIQUE_OWNERSHIP_`) that takes the reference-counted handle
and does not null-test it (its caller does). -/
def notMarkedForDestruction_handle {T : Type} (h : Heap T) (a : Nat) : Bool :=
  !(h.markedAt a)

/-- `ScopedRef<T> WeakRef::lock() const {
  auto sharedPtr = resource.lock();
  if (bool(sharedPtr) && notMarkedForDestruction(sharedPtr)) {
    return ScopedRef<T>(sharedPtr); }
  return ScopedRef<T>(); }`
— the variant that null-tests the handle before checking the flag. -/
def WeakRef.lock_handlecheck {T : Type} (h : Heap T) (link : Option Nat) :
    Heap T × scoped_extender :=
  let p := weakLock h link
  match p.2 with
  | some a =>
      if notMarkedForDestruction_handle p.1 a then (p.1, ⟨some a⟩)
      else (p.1.decStrong a, ⟨none⟩)
  | none => (p.1, ⟨none⟩)

/-- The heap effect of each public operation of the three handle types.
Operations that never touch the heap (weak_extender construction, copy, move,
reset; scoped_extender `empty`, `get`; `unique_extendable_ptr::get`; move
construction of the owner) have no constructor here because they are the
identity on the heap. -/
inductive HandleOp (T : Type) where
  /-- `unique_extendable_ptr(std::unique_ptr<T>)` / `make_unique_extendable`. -/
  | construct (r : Option T)
  /-- `unique_extendable_ptr::reset()` (also its destructor) on a handle whose
  link is `res`. -/
  | ownerReset (res : Option Nat)
  /-- the release of the target's previous link in the defaulted move
  assignment of `unique_extendable_ptr`. -/
  | moveAssignDrop (res : Option Nat)
  /-- `weak_extender::lock()` on a weak link `link`. -/
  | weakLockOp (link : Option Nat)
  /-- `scoped_extender::reset()` (also its destructor) on a scoped link. -/
  | scopedDrop (link : Option Nat)

/-- Apply a handle operation's heap effect. -/
def applyHandleOp {T : Type} (h : Heap T) : HandleOp T → Heap T
  | .construct r => (unique_extendable_ptr.construct h r).1
  | .ownerReset res => (unique_extendable_ptr.reset h ⟨res⟩).1
  | .moveAssignDrop res => (unique_extendable_ptr.moveAssign h ⟨res⟩ ⟨none⟩).1
  | .weakLockOp link => (weak_extender.lock h ⟨link⟩).1
  | .scopedDrop link => (scoped_extender.reset h ⟨link⟩).1

/-- Apply a sequence of handle operations. -/
def applyHandleOps {T : Type} (h : Heap T) (ops : List (HandleOp T)) : Heap T :=
  ops.foldl applyHandleOp h

/-! ### Pointwise effect of the heap primitives -/

theorem Heap.find_isSome_lt {T : Type} {h : Heap T} {a : Nat} {c : ResourceOwnerCell T}
    (hf : h.find a = some c) : a < h.cells.length := by
  have := List.getElem?_eq_some_iff.mp hf
  exact this.1

theorem Heap.find_set {T : Type} (h : Heap T) (a b : Nat) (c : ResourceOwnerCell T)
    (ha : a < h.cells.length) :
    (h.set a c).find b = if a = b then some c else h.find b := by
  unfold Heap.set Heap.find
  simp only [List.getElem?_set, ha]
  split <;> simp_all

theorem Heap.markedAt_def {T : Type} (h : Heap T) (a : Nat) :
    h.markedAt a = ((h.find a).map (fun c => c.marked_for_destruction)).getD false := by
  cases hf : h.find a <;> simp [Heap.markedAt, hf]

theorem Heap.strongAt_def {T : Type} (h : Heap T) (a : Nat) :
    h.strongAt a = ((h.find a).map (fun c => c.strong)).getD 0 := by
  cases hf : h.find a <;> simp [Heap.strongAt, hf]

theorem Heap.resourceAt_def {T : Type} (h : Heap T) (a : Nat) :
    h.resourceAt a = (h.find a).bind (fun c => c.resource) := by
  cases hf : h.find a <;> simp [Heap.resourceAt, hf]

theorem Heap.ownerGet_def {T : Type} (h : Heap T) (a : Nat) :
    h.ownerGet a =
      ((h.find a).map (fun c => if c.resource.isSome then some a else none)).getD none := by
  cases hf : h.find a <;> simp [Heap.ownerGet, hf]

theorem Heap.find_setMarked {T : Type} (h : Heap T) (a b : Nat) :
    (h.setMarked a).find b =
      if a = b then (h.find a).map (fun c => { c with marked_for_destruction := true })
      else h.find b := by
  unfold Heap.setMarked
  by_cases hab : a = b
  · subst hab
    cases hf : h.find a with
    | none => simp [hf]
    | some c => simp [hf, Heap.find_set h a a _ (Heap.find_isSome_lt hf)]
  · cases hf : h.find a with
    | none => simp [hf, hab]
    | some c => simp [hf, hab, Heap.find_set h a b _ (Heap.find_isSome_lt hf)]

theorem Heap.find_incStrong {T : Type} (h : Heap T) (a b : Nat) :
    (h.incStrong a).find b =
      if a = b then (h.find a).map (fun c => { c with strong := c.strong + 1 })
      else h.find b := by
  unfold Heap.incStrong
  by_cases hab : a = b
  · subst hab
    cases hf : h.find a with
    | none => simp [hf]
    | some c => simp [hf, Heap.find_set h a a _ (Heap.find_isSome_lt hf)]
  · cases hf : h.find a with
    | none => simp [hf, hab]
    | some c => simp [hf, hab, Heap.find_set h a b _ (Heap.find_isSome_lt hf)]

theorem Heap.find_decStrong {T : Type} (h : Heap T) (a b : Nat) :
    (h.decStrong a).find b =
      if a = b then
        (h.find a).map (fun c =>
          if c.strong ≤ 1 then { c with strong := 0, resource := none }
          else { c with strong := c.strong - 1 })
      else h.find b := by
  unfold Heap.decStrong
  by_cases hab : a = b
  · subst hab
    cases hf : h.find a with
    | none => simp [hf]
    | some c =>
      by_cases hc : c.strong ≤ 1 <;>
        simp [hf, hc, Heap.find_set h a a _ (Heap.find_isSome_lt hf)]
  · cases hf : h.find a with
    | none => simp [hf, hab]
    | some c =>
      by_cases hc : c.strong ≤ 1 <;>
        simp [hf, hc, hab, Heap.find_set h a b _ (Heap.find_isSome_lt hf)]

theorem Heap.find_alloc {T : Type} (h : Heap T) (r : Option T) (b : Nat) :
    (h.alloc r).1.find b =
      if b = h.cells.length then some ⟨r, false, 1⟩ else h.find b := by
  unfold Heap.alloc Heap.find
  rcases Nat.lt_trichotomy b h.cells.length with hb | hb | hb
  · rw [List.getElem?_append_left hb, if_neg (Nat.ne_of_lt hb)]
  · subst hb; simp [List.getElem?_concat_length]
  · rw [if_neg (Nat.ne_of_gt hb)]
    have hlen : (h.cells ++ [(⟨r, false, 1⟩ : ResourceOwnerCell T)]).length
        = h.cells.length + 1 := by simp
    rw [List.getElem?_eq_none (by rw [hlen]; omega),
      List.getElem?_eq_none (Nat.le_of_lt hb)]

/-! ### Derived pointwise facts about the destruction flag -/

theorem Heap.markedAt_setMarked_self {T : Type} (h : Heap T) (a : Nat)
    (ha : (h.find a).isSome) : (h.setMarked a).markedAt a = true := by
  rw [Heap.markedAt_def, Heap.find_setMarked, if_pos rfl]
  cases hf : h.find a with
  | none => rw [hf] at ha; simp at ha
  | some c => simp

theorem Heap.markedAt_setMarked {T : Type} (h : Heap T) (a b : Nat) :
    (h.setMarked a).markedAt b = h.markedAt b ∨ (h.setMarked a).markedAt b = true := by
  rw [Heap.markedAt_def, Heap.markedAt_def, Heap.find_setMarked]
  by_cases hab : a = b
  · subst hab
    cases h.find a with
    | none => left; simp
    | some c => right; simp
  · left; rw [if_neg hab]

theorem Heap.markedAt_incStrong {T : Type} (h : Heap T) (a b : Nat) :
    (h.incStrong a).markedAt b = h.markedAt b := by
  rw [Heap.markedAt_def, Heap.markedAt_def, Heap.find_incStrong]
  by_cases hab : a = b
  · subst hab; cases h.find a <;> simp
  · rw [if_neg hab]

theorem Heap.markedAt_decStrong {T : Type} (h : Heap T) (a b : Nat) :
    (h.decStrong a).markedAt b = h.markedAt b := by
  rw [Heap.markedAt_def, Heap.markedAt_def, Heap.find_decStrong]
  by_cases hab : a = b
  · subst hab
    cases h.find a with
    | none => simp
    | some c => by_cases hc : c.strong ≤ 1 <;> simp [hc]
  · rw [if_neg hab]

theorem Heap.markedAt_alloc {T : Type} (h : Heap T) (r : Option T) (b : Nat) :
    (h.alloc r).1.markedAt b = h.markedAt b := by
  rw [Heap.markedAt_def, Heap.markedAt_def, Heap.find_alloc]
  by_cases hb : b = h.cells.length
  · subst hb
    rw [if_pos rfl]
    have hnone : h.find h.cells.length = none := List.getElem?_eq_none (Nat.le_refl _)
    rw [hnone]
    rfl
  · rw [if_neg hb]

/-! ### Heap extensionality and ref-count cancellation -/

theorem Heap.ext_find {T : Type} {h1 h2 : Heap T}
    (hf : ∀ b, h1.find b = h2.find b) : h1 = h2 := by
  cases h1 with
  | mk c1 =>
    cases h2 with
    | mk c2 =>
      congr 1
      exact List.ext_getElem? hf

theorem Heap.decStrong_incStrong {T : Type} (h : Heap T) (a : Nat)
    (halive : h.alive a = true) : (h.incStrong a).decStrong a = h := by
  apply Heap.ext_find
  intro b
  rw [Heap.find_decStrong]
  by_cases hab : a = b
  · subst hab
    rw [if_pos rfl, Heap.find_incStrong, if_pos rfl]
    cases hf : h.find a with
    | none => simp
    | some c =>
      have hs : 0 < c.strong := by
        simp only [Heap.alive, Heap.strongAt, hf, decide_eq_true_eq] at halive
        exact halive
      simp only [Option.map_some']
      rw [if_neg (by omega)]
      simp
  · rw [if_neg hab, Heap.find_incStrong, if_neg hab]

/-! ### Characterisation of `weak_extender::lock` by the pre-state -/

theorem weak_extender.lock_none_link {T : Type} (h : Heap T) :
    weak_extender.lock h ⟨none⟩ = (h, ⟨none⟩) := by
  simp [weak_extender.lock, weakLock, not_marked_for_destruction]

theorem weak_extender.lock_dead {T : Type} (h : Heap T) (a : Nat)
    (hdead : h.alive a = false) :
    weak_extender.lock h ⟨some a⟩ = (h, ⟨none⟩) := by
  simp [weak_extender.lock, weakLock, hdead, not_marked_for_destruction]

theorem weak_extender.lock_marked {T : Type} (h : Heap T) (a : Nat)
    (halive : h.alive a = true) (hm : h.markedAt a = true) :
    weak_extender.lock h ⟨some a⟩ = (h, ⟨none⟩) := by
  have hm1 : (h.incStrong a).markedAt a = true := by
    rw [Heap.markedAt_incStrong]; exact hm
  have hstep : weak_extender.lock h ⟨some a⟩ = ((h.incStrong a).decStrong a, ⟨none⟩) := by
    simp [weak_extender.lock, weakLock, halive, not_marked_for_destruction, hm1]
  rw [hstep, Heap.decStrong_incStrong h a halive]

theorem weak_extender.lock_fresh {T : Type} (h : Heap T) (a : Nat)
    (halive : h.alive a = true) (hm : h.markedAt a = false) :
    weak_extender.lock h ⟨some a⟩ = (h.incStrong a, ⟨some a⟩) := by
  have hm1 : (h.incStrong a).markedAt a = false := by
    rw [Heap.markedAt_incStrong]; exact hm
  simp [weak_extender.lock, weakLock, halive, not_marked_for_destruction, hm1]

/-- `lock` never changes any destruction flag. -/
theorem weak_extender.lock_markedAt {T : Type} (h : Heap T) (w : weak_extender)
    (b : Nat) : ((weak_extender.lock h w).1).markedAt b = h.markedAt b := by
  cases w with
  | mk link =>
    cases link with
    | none => rw [weak_extender.lock_none_link]
    | some a =>
      cases halive : h.alive a with
      | false => rw [weak_extender.lock_dead h a halive]
      | true =>
        cases hm : h.markedAt a with
        | false =>
          rw [weak_extender.lock_fresh h a halive hm, Heap.markedAt_incStrong]
        | true => rw [weak_extender.lock_marked h a halive hm]

/-! ### Flag monotonicity helpers -/

theorem markedAt_applyHandleOp {T : Type} (h : Heap T) (op : HandleOp T) (a : Nat) :
    (applyHandleOp h op).markedAt a = h.markedAt a
      ∨ (applyHandleOp h op).markedAt a = true := by
  cases op with
  | construct r =>
    left
    simp only [applyHandleOp, unique_extendable_ptr.construct]
    exact Heap.markedAt_alloc h r a
  | ownerReset res =>
    cases res with
    | none => left; rfl
    | some b =>
      have hshape : applyHandleOp h (.ownerReset (some b)) = (h.setMarked b).decStrong b := rfl
      rw [hshape, Heap.markedAt_decStrong]
      exact Heap.markedAt_setMarked h b a
  | moveAssignDrop res =>
    cases res with
    | none => left; rfl
    | some b =>
      left
      have hshape : applyHandleOp h (.moveAssignDrop (some b)) = h.decStrong b := rfl
      rw [hshape]
      exact Heap.markedAt_decStrong h b a
  | weakLockOp link =>
    left
    exact weak_extender.lock_markedAt h ⟨link⟩ a
  | scopedDrop link =>
    cases link with
    | none => left; rfl
    | some b =>
      left
      have hshape : applyHandleOp h (.scopedDrop (some b)) = h.decStrong b := rfl
      rw [hshape]
      exact Heap.markedAt_decStrong h b a

theorem markedAt_applyHandleOp_true {T : Type} (h : Heap T) (op : HandleOp T) (a : Nat)
    (hm : h.markedAt a = true) : (applyHandleOp h op).markedAt a = true := by
  rcases markedAt_applyHandleOp h op a with heq | htrue
  · rw [heq]; exact hm
  · exact htrue

theorem markedAt_applyHandleOps_true {T : Type} (h : Heap T) (ops : List (HandleOp T))
    (a : Nat) (hm : h.markedAt a = true) : (applyHandleOps h ops).markedAt a = true := by
  induction ops generalizing h with
  | nil => exact hm
  | cons op rest ih =>
    exact ih (applyHandleOp h op) (markedAt_applyHandleOp_true h op a hm)

/-! ### Strong-count and resource pointwise facts -/

theorem Heap.strongAt_setMarked {T : Type} (h : Heap T) (a b : Nat) :
    (h.setMarked a).strongAt b = h.strongAt b := by
  rw [Heap.strongAt_def, Heap.strongAt_def, Heap.find_setMarked]
  by_cases hab : a = b
  · subst hab; cases h.find a <;> simp
  · rw [if_neg hab]

theorem Heap.strongAt_decStrong_self {T : Type} (h : Heap T) (a : Nat) :
    (h.decStrong a).strongAt a = h.strongAt a - 1 := by
  rw [Heap.strongAt_def, Heap.strongAt_def, Heap.find_decStrong, if_pos rfl]
  cases h.find a with
  | none => simp
  | some c =>
    by_cases hc : c.strong ≤ 1
    · simp only [hc, if_true, Option.map_some', Option.getD_some]
      omega
    · simp [hc]

theorem Heap.findIsSome_setMarked {T : Type} (h : Heap T) (a b : Nat) :
    ((h.setMarked a).find b).isSome = (h.find b).isSome := by
  rw [Heap.find_setMarked]
  by_cases hab : a = b
  · subst hab; cases h.find a <;> simp
  · rw [if_neg hab]

theorem weak_extender.lock_empty_of_marked {T : Type} (h : Heap T) (a : Nat)
    (hm : h.markedAt a = true) :
    ((weak_extender.lock h ⟨some a⟩).2).empty = true := by
  cases halive : h.alive a with
  | false => rw [weak_extender.lock_dead h a halive]; rfl
  | true => rw [weak_extender.lock_marked h a halive hm]; rfl

/-! ## Claims -/

/-- **C6**: The destruction flag of a `resource_owner` is a one-way latch:
both constructors initialise it to `false` (here: the cell allocated by
constructing a `unique_extendable_ptr`), no heap-touching operation of the
three handle types ever changes a flag except possibly setting it to `true`,
and once `true` it remains `true` across any sequence of operations. -/
theorem C6_destruction_flag_one_way_latch {T : Type} :
    (∀ (h : Heap T) (r : Option T),
        ((unique_extendable_ptr.construct h r).1).markedAt h.cells.length = false)
    ∧ (∀ (h : Heap T) (op : HandleOp T) (a : Nat),
        (applyHandleOp h op).markedAt a = h.markedAt a
          ∨ (applyHandleOp h op).markedAt a = true)
    ∧ (∀ (h : Heap T) (ops : List (HandleOp T)) (a : Nat),
        h.markedAt a = true → (applyHandleOps h ops).markedAt a = true) := by
  refine ⟨?_, markedAt_applyHandleOp, markedAt_applyHandleOps_true⟩
  intro h r
  rw [Heap.markedAt_def]
  have hfind : (unique_extendable_ptr.construct h r).1.find h.cells.length
      = some ⟨r, false, 1⟩ := by
    have halloc := Heap.find_alloc h r h.cells.length
    rw [if_pos rfl] at halloc
    exact halloc
  rw [hfind]
  rfl

/-- Witness for C6 at a concrete marked heap and operation sequence. -/
theorem C6_destruction_flag_one_way_latch_witness :
    (⟨[⟨some 5, true, 1⟩]⟩ : Heap Nat).markedAt 0 = true
    ∧ (applyHandleOps (⟨[⟨some 5, true, 1⟩]⟩ : Heap Nat)
        [.weakLockOp (some 0), .scopedDrop (some 0)]).markedAt 0 = true :=
  ⟨by decide, C6_destruction_flag_one_way_latch.2.2 _ _ 0 (by decide)⟩

/-- **C1**: `weak_extender::lock` follows the spec's algorithm, stated on the
pre-state: an empty or expired weak observation yields an empty
`scoped_extender` and leaves the heap untouched; a live observation whose
destruction latch is set yields an empty `scoped_extender` and the acquired
strong reference is dropped again (the heap is restored); otherwise the
result is a non-empty `scoped_extender` wrapping the strong reference just
acquired. -/
theorem C1_lock_algorithm {T : Type} (h : Heap T) (w : weak_extender) :
    (w.link = none → weak_extender.lock h w = (h, ⟨none⟩))
    ∧ (∀ a, w.link = some a → h.alive a = false →
        weak_extender.lock h w = (h, ⟨none⟩))
    ∧ (∀ a, w.link = some a → h.alive a = true → h.markedAt a = true →
        weak_extender.lock h w = (h, ⟨none⟩))
    ∧ (∀ a, w.link = some a → h.alive a = true → h.markedAt a = false →
        weak_extender.lock h w = (h.incStrong a, ⟨some a⟩)
          ∧ ((weak_extender.lock h w).2).empty = false) := by
  refine ⟨?_, ?_, ?_, ?_⟩
  · intro hl
    cases w with
    | mk link => cases hl; exact weak_extender.lock_none_link h
  · intro a hl hdead
    cases w with
    | mk link => cases hl; exact weak_extender.lock_dead h a hdead
  · intro a hl halive hm
    cases w with
    | mk link => cases hl; exact weak_extender.lock_marked h a halive hm
  · intro a hl halive hm
    cases w with
    | mk link =>
      cases hl
      refine ⟨weak_extender.lock_fresh h a halive hm, ?_⟩
      rw [weak_extender.lock_fresh h a halive hm]
      rfl

/-- Witness for C1: the success branch at a concrete one-cell heap. -/
theorem C1_lock_algorithm_witness :
    weak_extender.lock (⟨[⟨some 42, false, 1⟩]⟩ : Heap Nat) ⟨some 0⟩
      = ((⟨[⟨some 42, false, 1⟩]⟩ : Heap Nat).incStrong 0, ⟨some 0⟩) :=
  ((C1_lock_algorithm (⟨[⟨some 42, false, 1⟩]⟩ : Heap Nat) ⟨some 0⟩).2.2.2
    0 rfl (by decide) (by decide)).1

/-- **C5** (amended): on the extendable variant, `empty()` is true iff the
lock attempt that produced the `scoped_extender` failed, `scoped_extender::get`
on an empty instance returns null rather than faulting, and on a non-empty
instance returns the address of the held resource.  (The shareable variant's
`ScopedRef::get` does not null-check; see the counterexample.) -/
theorem C5_scoped_extender_empty_and_get {T : Type} (h : Heap T) (w : weak_extender) :
    (((weak_extender.lock h w).2).empty = true
      ↔ ¬∃ a, w.link = some a ∧ h.alive a = true ∧ h.markedAt a = false)
    ∧ (∀ s : scoped_extender, s.empty = true → scoped_extender.get h s = none)
    ∧ (∀ (s : scoped_extender) (a : Nat), s.link = some a →
        s.empty = false ∧ scoped_extender.get h s = h.ownerGet a) := by
  refine ⟨⟨?_, ?_⟩, ?_, ?_⟩
  · intro hemp hex
    obtain ⟨a, hl, halive, hm⟩ := hex
    cases w with
    | mk link =>
      cases hl
      rw [weak_extender.lock_fresh h a halive hm] at hemp
      simp [scoped_extender.empty] at hemp
  · intro hfail
    cases w with
    | mk link =>
      cases link with
      | none => rw [weak_extender.lock_none_link]; rfl
      | some a =>
        cases halive : h.alive a with
        | false => rw [weak_extender.lock_dead h a halive]; rfl
        | true =>
          cases hm : h.markedAt a with
          | true => exact weak_extender.lock_empty_of_marked h a hm
          | false => exact absurd ⟨a, rfl, halive, hm⟩ hfail
  · intro s hemp
    cases s with
    | mk link =>
      cases link with
      | none => rfl
      | some a => simp [scoped_extender.empty] at hemp
  · intro s a hl
    cases s with
    | mk link => cases hl; exact ⟨rfl, rfl⟩

/-- C5 counterexample: the shareable variant's `ScopedRef::get` dereferences
its null reference-counted handle on an empty instance — undefined behaviour
(modelled `none`) — rather than returning the null pointer (`some none`). -/
theorem C5_ScopedRef_get_empty_counterexample :
    (⟨none⟩ : scoped_extender).empty = true
    ∧ ScopedRef.get (⟨[]⟩ : Heap Nat) ⟨none⟩ = none
    ∧ ScopedRef.get (⟨[]⟩ : Heap Nat) ⟨none⟩ ≠ some none := by
  refine ⟨rfl, rfl, ?_⟩
  decide

/-- Witness for C5 on a concrete non-empty `scoped_extender`. -/
theorem C5_scoped_extender_empty_and_get_witness :
    (⟨some 0⟩ : scoped_extender).empty = false
    ∧ scoped_extender.get (⟨[⟨some 9, false, 1⟩]⟩ : Heap Nat) ⟨some 0⟩
        = (⟨[⟨some 9, false, 1⟩]⟩ : Heap Nat).ownerGet 0 :=
  (C5_scoped_extender_empty_and_get (⟨[⟨some 9, false, 1⟩]⟩ : Heap Nat)
    ⟨none⟩).2.2 ⟨some 0⟩ 0 rfl

/-- **C8**: the two `lock` variants — the one whose flag predicate
null-tests the raw `resource_owner` pointer and the one that null-tests the
reference-counted handle before reading the flag — produce identical results
(same heap, same empty/non-empty `scoped_extender`) in every state. -/
theorem C8_lock_checks_equivalent {T : Type} (h : Heap T) (link : Option Nat) :
    WeakRef.lock_handlecheck h link = weak_extender.lock h ⟨link⟩ := by
  cases link with
  | none => rw [weak_extender.lock_none_link]; rfl
  | some a =>
    cases halive : h.alive a with
    | false =>
      rw [weak_extender.lock_dead h a halive]
      simp [WeakRef.lock_handlecheck, weakLock, halive]
    | true =>
      cases hm : h.markedAt a with
      | false =>
        rw [weak_extender.lock_fresh h a halive hm]
        have hm1 : (h.incStrong a).markedAt a = false := by
          rw [Heap.markedAt_incStrong]; exact hm
        simp [WeakRef.lock_handlecheck, weakLock, halive,
          notMarkedForDestruction_handle, hm1]
      | true =>
        rw [weak_extender.lock_marked h a halive hm]
        have hm1 : (h.incStrong a).markedAt a = true := by
          rw [Heap.markedAt_incStrong]; exact hm
        simp [WeakRef.lock_handlecheck, weakLock, halive,
          notMarkedForDestruction_handle, hm1,
          Heap.decStrong_incStrong h a halive]

/-- **C4**: `reset()` on a non-empty `unique_extendable_ptr` sets the
destruction latch of its cell, drops exactly one strong reference, and
leaves the pointer empty; on an empty pointer it is a no-op; and the
destructor performs exactly `reset()`. -/
theorem C4_release_sets_latch_and_drops {T : Type} :
    (∀ (h : Heap T) (p : unique_extendable_ptr) (a : Nat),
        p.resource = some a → (h.find a).isSome = true →
        ((unique_extendable_ptr.reset h p).1).markedAt a = true
        ∧ ((unique_extendable_ptr.reset h p).1).strongAt a = h.strongAt a - 1
        ∧ ((unique_extendable_ptr.reset h p).2).resource = none)
    ∧ (∀ (h : Heap T) (p : unique_extendable_ptr), p.resource = none →
        unique_extendable_ptr.reset h p = (h, p))
    ∧ (∀ (h : Heap T) (p : unique_extendable_ptr),
        unique_extendable_ptr.destroy h p = unique_extendable_ptr.reset h p) := by
  refine ⟨?_, ?_, ?_⟩
  · intro h p a hp hcell
    cases p with
    | mk res =>
      cases hp
      refine ⟨?_, ?_, rfl⟩
      · have hshape : (unique_extendable_ptr.reset h ⟨some a⟩).1
            = (h.setMarked a).decStrong a := rfl
        rw [hshape, Heap.markedAt_decStrong]
        exact Heap.markedAt_setMarked_self h a hcell
      · have hshape : (unique_extendable_ptr.reset h ⟨some a⟩).1
            = (h.setMarked a).decStrong a := rfl
        rw [hshape, Heap.strongAt_decStrong_self, Heap.strongAt_setMarked]
  · intro h p hp
    cases p with
    | mk res => cases hp; rfl
  · intro h p
    rfl

/-- Witness for C4 at a concrete one-cell heap. -/
theorem C4_release_sets_latch_and_drops_witness :
    ((unique_extendable_ptr.reset (⟨[⟨some 3, false, 1⟩]⟩ : Heap Nat)
        ⟨some 0⟩).1).markedAt 0 = true
    ∧ ((unique_extendable_ptr.reset (⟨[⟨some 3, false, 1⟩]⟩ : Heap Nat)
        ⟨some 0⟩).1).strongAt 0 = (⟨[⟨some 3, false, 1⟩]⟩ : Heap Nat).strongAt 0 - 1
    ∧ ((unique_extendable_ptr.reset (⟨[⟨some 3, false, 1⟩]⟩ : Heap Nat)
        ⟨some 0⟩).2).resource = none :=
  C4_release_sets_latch_and_drops.1 _ ⟨some 0⟩ 0 rfl (by decide)

/-- **C3**: once `reset()` has run on the owner `p`, every subsequent `lock()`
on any `weak_extender` derived from `p` (its link is `p`'s old cell, or empty
after a weak reset) yields an empty `scoped_extender`, across any further
sequence of handle operations — in particular even while other strong
references keep the `resource_owner` alive. -/
theorem C3_release_blocks_future_locks {T : Type} (h : Heap T)
    (p : unique_extendable_ptr) (a : Nat) (ops : List (HandleOp T))
    (w : weak_extender)
    (hp : p.resource = some a) (hcell : (h.find a).isSome = true)
    (hw : w.link = some a ∨ w.link = none) :
    ((weak_extender.lock
        (applyHandleOps (unique_extendable_ptr.reset h p).1 ops) w).2).empty
      = true := by
  cases p with
  | mk res =>
    cases hp
    have hshape : (unique_extendable_ptr.reset h ⟨some a⟩).1
        = (h.setMarked a).decStrong a := rfl
    have hm1 : ((unique_extendable_ptr.reset h ⟨some a⟩).1).markedAt a = true := by
      rw [hshape, Heap.markedAt_decStrong]
      exact Heap.markedAt_setMarked_self h a hcell
    have hm2 : (applyHandleOps (unique_extendable_ptr.reset h ⟨some a⟩).1 ops).markedAt a
        = true := markedAt_applyHandleOps_true _ ops a hm1
    rcases hw with hw | hw
    · cases w with
      | mk link =>
        cases hw
        exact weak_extender.lock_empty_of_marked _ a hm2
    · cases w with
      | mk link =>
        cases hw
        rw [weak_extender.lock_none_link]
        rfl

/-- Witness for C3: a released owner whose cell is still held by one more
strong reference; the lock nevertheless comes back empty. -/
theorem C3_release_blocks_future_locks_witness :
    ((weak_extender.lock
        (applyHandleOps
          (unique_extendable_ptr.reset (⟨[⟨some 7, false, 2⟩]⟩ : Heap Nat) ⟨some 0⟩).1
          [])
        ⟨some 0⟩).2).empty = true :=
  C3_release_blocks_future_locks (⟨[⟨some 7, false, 2⟩]⟩ : Heap Nat) ⟨some 0⟩ 0 []
    ⟨some 0⟩ rfl (by decide) (Or.inl rfl)

/-- **C7**: for a `weak_extender` derived from a live owner that has not been
released, `lock()` yields a non-empty `scoped_extender` whose `get()` equals
the owner's `get()` (both evaluated after the lock). -/
theorem C7_lock_agrees_with_owner {T : Type} (h : Heap T)
    (p : unique_extendable_ptr) (a : Nat)
    (hp : p.resource = some a) (halive : h.alive a = true)
    (hm : h.markedAt a = false) :
    ((weak_extender.lock h (weak_extender.ofOwner p)).2).empty = false
    ∧ unique_extendable_ptr.get (weak_extender.lock h (weak_extender.ofOwner p)).1 p
      = some (scoped_extender.get (weak_extender.lock h (weak_extender.ofOwner p)).1
          (weak_extender.lock h (weak_extender.ofOwner p)).2) := by
  cases p with
  | mk res =>
    cases hp
    have hofw : weak_extender.ofOwner (⟨some a⟩ : unique_extendable_ptr)
        = ⟨some a⟩ := rfl
    rw [hofw, weak_extender.lock_fresh h a halive hm]
    exact ⟨rfl, rfl⟩

/-- Witness for C7 at a one-cell heap holding 42. -/
theorem C7_lock_agrees_with_owner_witness :
    ((weak_extender.lock (⟨[⟨some 42, false, 1⟩]⟩ : Heap Nat)
        (weak_extender.ofOwner ⟨some 0⟩)).2).empty = false
    ∧ unique_extendable_ptr.get
        (weak_extender.lock (⟨[⟨some 42, false, 1⟩]⟩ : Heap Nat)
          (weak_extender.ofOwner ⟨some 0⟩)).1 ⟨some 0⟩
      = some (scoped_extender.get
          (weak_extender.lock (⟨[⟨some 42, false, 1⟩]⟩ : Heap Nat)
            (weak_extender.ofOwner ⟨some 0⟩)).1
          (weak_extender.lock (⟨[⟨some 42, false, 1⟩]⟩ : Heap Nat)
            (weak_extender.ofOwner ⟨some 0⟩)).2) :=
  C7_lock_agrees_with_owner (⟨[⟨some 42, false, 1⟩]⟩ : Heap Nat) ⟨some 0⟩ 0
    rfl (by decide) (by decide)

/-- **C9**: constructing a `unique_extendable_ptr` from a null
`std::unique_ptr` still allocates a `resource_owner`: the resulting pointer is
not empty, its `get()` returns null without faulting, and locking a
`weak_extender` derived from it yields a `scoped_extender` with
`empty() = false` whose `get()` returns null — `empty()` signals lock failure,
not absence of the resource. -/
theorem C9_null_resource_still_owns {T : Type} (h : Heap T) :
    ((unique_extendable_ptr.construct h (none : Option T)).2).resource ≠ none
    ∧ unique_extendable_ptr.get
        (unique_extendable_ptr.construct h (none : Option T)).1
        (unique_extendable_ptr.construct h (none : Option T)).2 = some none
    ∧ ((weak_extender.lock (unique_extendable_ptr.construct h (none : Option T)).1
        (weak_extender.ofOwner
          (unique_extendable_ptr.construct h (none : Option T)).2)).2).empty = false
    ∧ scoped_extender.get
        (weak_extender.lock (unique_extendable_ptr.construct h (none : Option T)).1
          (weak_extender.ofOwner
            (unique_extendable_ptr.construct h (none : Option T)).2)).1
        (weak_extender.lock (unique_extendable_ptr.construct h (none : Option T)).1
          (weak_extender.ofOwner
            (unique_extendable_ptr.construct h (none : Option T)).2)).2 = none := by
  have hfind : (h.alloc (none : Option T)).1.find h.cells.length
      = some ⟨none, false, 1⟩ := by
    have halloc := Heap.find_alloc h none h.cells.length
    rw [if_pos rfl] at halloc
    exact halloc
  have halive : (h.alloc (none : Option T)).1.alive h.cells.length = true := by
    rw [Heap.alive, Heap.strongAt_def, hfind]
    rfl
  have hm : (h.alloc (none : Option T)).1.markedAt h.cells.length = false := by
    rw [Heap.markedAt_def, hfind]
    rfl
  have hcon : unique_extendable_ptr.construct h (none : Option T)
      = ((h.alloc (none : Option T)).1, ⟨some h.cells.length⟩) := rfl
  have hofw : weak_extender.ofOwner
      (⟨some h.cells.length⟩ : unique_extendable_ptr) = ⟨some h.cells.length⟩ := rfl
  rw [hcon]
  refine ⟨by simp, ?_, ?_, ?_⟩
  · show some ((h.alloc (none : Option T)).1.ownerGet h.cells.length) = some none
    rw [Heap.ownerGet_def, hfind]
    rfl
  · show ((weak_extender.lock (h.alloc (none : Option T)).1
        (weak_extender.ofOwner ⟨some h.cells.length⟩)).2).empty = false
    rw [hofw, weak_extender.lock_fresh _ _ halive hm]
    rfl
  · show scoped_extender.get
        (weak_extender.lock (h.alloc (none : Option T)).1
          (weak_extender.ofOwner ⟨some h.cells.length⟩)).1
        (weak_extender.lock (h.alloc (none : Option T)).1
          (weak_extender.ofOwner ⟨some h.cells.length⟩)).2 = none
    rw [hofw, weak_extender.lock_fresh _ _ halive hm]
    show ((h.alloc (none : Option T)).1.incStrong h.cells.length).ownerGet
        h.cells.length = none
    have hfind2 : ((h.alloc (none : Option T)).1.incStrong h.cells.length).find
        h.cells.length = some ⟨none, false, 2⟩ := by
      rw [Heap.find_incStrong, if_pos rfl, hfind]
      rfl
    rw [Heap.ownerGet_def, hfind2]
    rfl

/-- **C2**: a `lock()` that completed non-empty pins the resource through a
subsequent `release()` on the owner (the interleaving in which the release is
ordered after the successful lock): after `reset()` the cell is still alive,
still holds the same resource value, and the `scoped_extender` still
dereferences to the same non-null address as before the release — the
resource is not freed while the `scoped_extender` holds its reference. -/
theorem C2_scoped_survives_release {T : Type} (h : Heap T)
    (p : unique_extendable_ptr) (w : weak_extender) (a : Nat) (v : T)
    (hw : w.link = some a) (hp : p.resource = some a)
    (halive : h.alive a = true) (hm : h.markedAt a = false)
    (hv : h.resourceAt a = some v) :
    ((weak_extender.lock h w).2).empty = false
    ∧ ((unique_extendable_ptr.reset (weak_extender.lock h w).1 p).1).alive a = true
    ∧ ((unique_extendable_ptr.reset (weak_extender.lock h w).1 p).1).resourceAt a
        = some v
    ∧ scoped_extender.get (unique_extendable_ptr.reset (weak_extender.lock h w).1 p).1
        (weak_extender.lock h w).2 = some a
    ∧ scoped_extender.get (unique_extendable_ptr.reset (weak_extender.lock h w).1 p).1
        (weak_extender.lock h w).2
      = scoped_extender.get (weak_extender.lock h w).1 (weak_extender.lock h w).2 := by
  cases w with
  | mk wl =>
    cases hw
    cases p with
    | mk res =>
      cases hp
      cases hfc : h.find a with
      | none =>
        rw [Heap.alive, Heap.strongAt_def, hfc] at halive
        simp at halive
      | some c =>
        have hstrong : 0 < c.strong := by
          rw [Heap.alive, Heap.strongAt_def, hfc] at halive
          simpa using halive
        have hcr : c.resource = some v := by
          rw [Heap.resourceAt_def, hfc] at hv
          simpa using hv
        rw [weak_extender.lock_fresh h a halive hm]
        have hshape : (unique_extendable_ptr.reset (h.incStrong a) ⟨some a⟩).1
            = ((h.incStrong a).setMarked a).decStrong a := rfl
        have f1 : (h.incStrong a).find a
            = some ⟨c.resource, c.marked_for_destruction, c.strong + 1⟩ := by
          rw [Heap.find_incStrong, if_pos rfl, hfc]
          rfl
        have f2 : ((h.incStrong a).setMarked a).find a
            = some ⟨c.resource, true, c.strong + 1⟩ := by
          rw [Heap.find_setMarked, if_pos rfl, f1]
          rfl
        have f3 : (((h.incStrong a).setMarked a).decStrong a).find a
            = some ⟨c.resource, true, c.strong⟩ := by
          rw [Heap.find_decStrong, if_pos rfl, f2]
          simp only [Option.map_some']
          rw [if_neg (by omega)]
          simp
        refine ⟨rfl, ?_, ?_, ?_, ?_⟩
        · rw [show (unique_extendable_ptr.reset (h.incStrong a) ⟨some a⟩).1
              = ((h.incStrong a).setMarked a).decStrong a from rfl]
          rw [Heap.alive, Heap.strongAt_def, f3]
          simpa using hstrong
        · rw [hshape, Heap.resourceAt_def, f3]
          simpa using hcr
        · rw [show scoped_extender.get
              (unique_extendable_ptr.reset (h.incStrong a) ⟨some a⟩).1 ⟨some a⟩
              = (((h.incStrong a).setMarked a).decStrong a).ownerGet a from rfl]
          rw [Heap.ownerGet_def, f3]
          simp [hcr]
        · rw [show scoped_extender.get
              (unique_extendable_ptr.reset (h.incStrong a) ⟨some a⟩).1 ⟨some a⟩
              = (((h.incStrong a).setMarked a).decStrong a).ownerGet a from rfl]
          rw [show scoped_extender.get (h.incStrong a) ⟨some a⟩
              = (h.incStrong a).ownerGet a from rfl]
          rw [Heap.ownerGet_def, Heap.ownerGet_def, f3, f1]
          simp [hcr]

/-- Witness for C2: value 7, owner and scoped reference on the same cell. -/
theorem C2_scoped_survives_release_witness :
    ((weak_extender.lock (⟨[⟨some 7, false, 1⟩]⟩ : Heap Nat) ⟨some 0⟩).2).empty = false
    ∧ ((unique_extendable_ptr.reset
        (weak_extender.lock (⟨[⟨some 7, false, 1⟩]⟩ : Heap Nat) ⟨some 0⟩).1
        ⟨some 0⟩).1).alive 0 = true
    ∧ ((unique_extendable_ptr.reset
        (weak_extender.lock (⟨[⟨some 7, false, 1⟩]⟩ : Heap Nat) ⟨some 0⟩).1
        ⟨some 0⟩).1).resourceAt 0 = some 7
    ∧ scoped_extender.get
        (unique_extendable_ptr.reset
          (weak_extender.lock (⟨[⟨some 7, false, 1⟩]⟩ : Heap Nat) ⟨some 0⟩).1
          ⟨some 0⟩).1
        (weak_extender.lock (⟨[⟨some 7, false, 1⟩]⟩ : Heap Nat) ⟨some 0⟩).2 = some 0
    ∧ scoped_extender.get
        (unique_extendable_ptr.reset
          (weak_extender.lock (⟨[⟨some 7, false, 1⟩]⟩ : Heap Nat) ⟨some 0⟩).1
          ⟨some 0⟩).1
        (weak_extender.lock (⟨[⟨some 7, false, 1⟩]⟩ : Heap Nat) ⟨some 0⟩).2
      = scoped_extender.get
          (weak_extender.lock (⟨[⟨some 7, false, 1⟩]⟩ : Heap Nat) ⟨some 0⟩).1
          (weak_extender.lock (⟨[⟨some 7, false, 1⟩]⟩ : Heap Nat) ⟨some 0⟩).2 :=
  C2_scoped_survives_release (⟨[⟨some 7, false, 1⟩]⟩ : Heap Nat) ⟨some 0⟩ ⟨some 0⟩
    0 7 rfl rfl (by decide) (by decide) (by decide)

/-- **C10**: the defaulted move assignment drops the target's reference to its
previous `resource_owner` without setting any cell's destruction flag; when a
second strong reference (a live `scoped_extender`) keeps that cell alive, it
stays alive and a `lock()` through a `weak_extender` observing it still
succeeds even though no owning handle references the cell any more. -/
theorem C10_move_assign_no_marking {T : Type} (h : Heap T)
    (dst src : unique_extendable_ptr) (a : Nat)
    (hd : dst.resource = some a) (hs2 : 2 ≤ h.strongAt a)
    (hm : h.markedAt a = false) :
    (∀ b, ((unique_extendable_ptr.moveAssign h dst src).1).markedAt b = h.markedAt b)
    ∧ ((unique_extendable_ptr.moveAssign h dst src).1).strongAt a = h.strongAt a - 1
    ∧ ((unique_extendable_ptr.moveAssign h dst src).1).alive a = true
    ∧ ((weak_extender.lock (unique_extendable_ptr.moveAssign h dst src).1
        ⟨some a⟩).2).empty = false := by
  cases dst with
  | mk d =>
    cases hd
    have hshape : (unique_extendable_ptr.moveAssign h ⟨some a⟩ src).1
        = h.decStrong a := rfl
    rw [hshape]
    have hstrong : (h.decStrong a).strongAt a = h.strongAt a - 1 :=
      Heap.strongAt_decStrong_self h a
    have halive2 : (h.decStrong a).alive a = true := by
      rw [Heap.alive, hstrong]
      simp only [decide_eq_true_eq]
      omega
    have hm2 : (h.decStrong a).markedAt a = false := by
      rw [Heap.markedAt_decStrong]
      exact hm
    refine ⟨fun b => Heap.markedAt_decStrong h a b, hstrong, halive2, ?_⟩
    rw [weak_extender.lock_fresh _ a halive2 hm2]
    rfl

/-- Witness for C10: one cell held by the owner and one scoped_extender;
move-assigning an empty pointer over the owner. -/
theorem C10_move_assign_no_marking_witness :
    ((unique_extendable_ptr.moveAssign (⟨[⟨some 1, false, 2⟩]⟩ : Heap Nat)
        ⟨some 0⟩ ⟨none⟩).1).markedAt 0 = (⟨[⟨some 1, false, 2⟩]⟩ : Heap Nat).markedAt 0
    ∧ ((unique_extendable_ptr.moveAssign (⟨[⟨some 1, false, 2⟩]⟩ : Heap Nat)
        ⟨some 0⟩ ⟨none⟩).1).alive 0 = true
    ∧ ((weak_extender.lock
        (unique_extendable_ptr.moveAssign (⟨[⟨some 1, false, 2⟩]⟩ : Heap Nat)
          ⟨some 0⟩ ⟨none⟩).1 ⟨some 0⟩).2).empty = false := by
  have hmain := C10_move_assign_no_marking (⟨[⟨some 1, false, 2⟩]⟩ : Heap Nat)
    ⟨some 0⟩ ⟨none⟩ 0 rfl (by decide) (by decide)
  exact ⟨hmain.1 0, hmain.2.2.1, hmain.2.2.2⟩
